import Mathlib

set_option maxRecDepth 8000

/-!
Shallow embedding of the template-resolution and deck-mutation engine of
the Antigravity repository: `backend/ppt_utils.py`, `backend/ppt_processor.py`
and `backend/data_loader.py`.  Rich text is modelled as frames of paragraphs
of runs; Python strings are Lean `String`s manipulated through their
character lists so that every operation reduces in the kernel.
-/

/-- Python's whitespace class (`str.strip`, regex `\s`) restricted to ASCII. -/
def isPyWs (c : Char) : Bool :=
  c = ' ' || c = '\t' || c = '\n' || c = '\r' || c = '\x0b' || c = '\x0c'

def trimList (cs : List Char) : List Char :=
  ((cs.dropWhile isPyWs).reverse.dropWhile isPyWs).reverse

/-- Python `str.strip()`. -/
def pyStrip (s : String) : String := ⟨trimList s.data⟩

/-- Substring test on character lists (Python `needle in hay`). -/
def infixB (needle : List Char) : List Char → Bool
  | [] => needle.isEmpty
  | c :: rest => needle.isPrefixOf (c :: rest) || infixB needle rest

/-- Python `needle in hay` on strings. -/
def substrB (needle hay : String) : Bool := infixB needle.data hay.data

def startsWithB (s pre : String) : Bool := pre.data.isPrefixOf s.data

def endsWithB (s suf : String) : Bool := suf.data.isSuffixOf s.data

/-- ASCII lower-casing of one character (Python `str.lower` on ASCII input). -/
def charLowerAscii (c : Char) : Char :=
  if 'A' ≤ c && c ≤ 'Z' then Char.ofNat (c.toNat + 32) else c

/-- Python `str.lower()` (ASCII). -/
def pyLower (s : String) : String := ⟨s.data.map charLowerAscii⟩

/-- Scan for the earliest `\x7d\x7d` in `cs`: characters before it and after it. -/
def findClose : List Char → Option (List Char × List Char)
  | [] => none
  | c :: rest =>
      if c = '\x7d' ∧ rest.head? = some '\x7d' then some ([], rest.tail)
      else (findClose rest).map (fun pr => (c :: pr.1, pr.2))

/-- Leftmost match of the non-greedy token pattern `\{\{.*?\}\}` (DOTALL):
    returns `(before, token, after)`.  Mirrors `re` semantics: the match starts
    at the first `\x7b\x7b` followed by some later `\x7d\x7d`, and ends at the
    first such `\x7d\x7d`. -/
def findToken : List Char → Option (List Char × List Char × List Char)
  | [] => none
  | c :: rest =>
      if c = '\x7b' ∧ rest.head? = some '\x7b' then
        match findClose rest.tail with
        | some pr =>
            some ([], '\x7b' :: '\x7b' :: (pr.1 ++ ['\x7d', '\x7d']), pr.2)
        | none => none
      else (findToken rest).map (fun t => (c :: t.1, t.2.1, t.2.2))

theorem findClose_lt (cs : List Char) : ∀ pr, findClose cs = some pr →
    pr.2.length < cs.length := by
  induction cs with
  | nil => intro pr h; simp [findClose] at h
  | cons c rest ih =>
    intro pr h
    simp only [findClose] at h
    split at h
    · cases h
      have := List.length_tail rest
      simp_all; omega
    · rw [Option.map_eq_some'] at h
      obtain ⟨a, ha, hf⟩ := h
      have := ih a ha
      subst hf; simp at this ⊢; omega

theorem findToken_lt (cs : List Char) : ∀ t, findToken cs = some t →
    t.2.2.length < cs.length := by
  induction cs with
  | nil => intro t h; simp [findToken] at h
  | cons c rest ih =>
    intro t h
    simp only [findToken] at h
    split at h
    · split at h
      · rename_i pr hpr
        cases h
        have h1 := findClose_lt rest.tail pr hpr
        have h2 := List.length_tail rest
        simp at h1 ⊢; omega
      · simp at h
    · rw [Option.map_eq_some'] at h
      obtain ⟨a, ha, hf⟩ := h
      have := ih a ha
      subst hf; simp at this ⊢; omega

/-- `re.split(r"(\{\{.*?\}\})", s)` on character lists: alternating
    static / token pieces (tokens included, pieces may be empty).  The fuel
    only serves Lean's termination checker: each step strictly shortens the
    remaining list (`findToken_lt`), so `fuel = cs.length` always suffices. -/
def splitTokensAux : Nat → List Char → List (List Char)
  | 0, cs => [cs]
  | fuel + 1, cs =>
      match findToken cs with
      | none => [cs]
      | some t => t.1 :: t.2.1 :: splitTokensAux fuel t.2.2

def splitTokensList (cs : List Char) : List (List Char) :=
  splitTokensAux cs.length cs

def pySplitTokens (s : String) : List String :=
  (splitTokensList s.data).map (fun l => ⟨l⟩)

/-- `pattern.subn(" ", s)` for the token pattern: replace every
    (leftmost, non-overlapping) token with one space, count matches. -/
def pySubnAux : Nat → List Char → List Char × Nat
  | 0, cs => (cs, 0)
  | fuel + 1, cs =>
      match findToken cs with
      | none => (cs, 0)
      | some t =>
          let r := pySubnAux fuel t.2.2
          (t.1 ++ (' ' :: r.1), r.2 + 1)

def pySubnList (cs : List Char) : List Char × Nat :=
  pySubnAux cs.length cs

def pySubn (s : String) : String × Nat :=
  let r := pySubnList s.data
  (⟨r.1⟩, r.2)

/-! ## Rich-text document model (python-pptx text frames) -/

structure Color where
  r : Nat
  g : Nat
  b : Nat
deriving DecidableEq, Repr, Inhabited

/-- A run-level formatting dictionary: each entry independently optional,
    absence means "do not override" (`apply_formatting` in ppt_utils.py). -/
structure Fmt where
  bold : Option Bool := none
  font_size : Option Nat := none
  color : Option Color := none
deriving DecidableEq, Repr, Inhabited

/-- Paragraph-level properties: never inspected by the engine, only `level`
    is ever written (bullet branch of `process_text_frame`). -/
structure ParaProps where
  alignment : Option Nat := none
  indent : Option Int := none
  space_before : Option Nat := none
  space_after : Option Nat := none
  level : Nat := 0
deriving DecidableEq, Repr, Inhabited

structure Run where
  text : String
  font : Fmt := {}
deriving DecidableEq, Repr, Inhabited

structure Paragraph where
  props : ParaProps := {}
  runs : List Run := []
deriving DecidableEq, Repr, Inhabited

structure TextFrame where
  paras : List Paragraph := []
deriving DecidableEq, Repr, Inhabited

def myIntercalate (sep : String) : List String → String
  | [] => ""
  | [s] => s
  | s :: rest => s ++ sep ++ myIntercalate sep rest

/-- `paragraph.text` (python-pptx): concatenation of the run texts. -/
def Paragraph.text (p : Paragraph) : String :=
  myIntercalate "" (p.runs.map Run.text)

/-- `text_frame.text` (python-pptx): paragraph texts joined by newlines. -/
def TextFrame.text (tf : TextFrame) : String :=
  myIntercalate "\n" (tf.paras.map Paragraph.text)

/-! ## Run Rewriter: `process_text_frame` (ppt_utils.py lines 25-150) -/

/-- One replacement-plan entry:
    `{ 'text': str, 'formatting': dict, 'is_bullet': bool }`. -/
structure RepData where
  text : String
  formatting : Fmt := {}
  is_bullet : Bool := false
deriving DecidableEq, Repr, Inhabited

/-- `apply_formatting(run, formatting)`: override exactly the fields present
    in the formatting dictionary. -/
def apply_formatting (formatting : Fmt) (f : Fmt) : Fmt where
  bold := match formatting.bold with | some b => some b | none => f.bold
  font_size := match formatting.font_size with | some n => some n | none => f.font_size
  color := match formatting.color with | some c => some c | none => f.color

/-- A fresh run (`p.add_run()`) carrying `text` with `formatting` applied. -/
def mkRunApplied (text : String) (formatting : Fmt) : Run :=
  { text := text, font := apply_formatting formatting {} }

/-- A static-fragment run: original text verbatim, font size pinned to 7pt
    (`run.font.size = Pt(7)` in the static branch). -/
def staticRun (text : String) : Run :=
  { text := text, font := { font_size := some 7 } }

/-- Dictionary lookup `replacements[key]` (insertion-ordered dict as list). -/
def lookupRep : List (String × RepData) → String → Option RepData
  | [], _ => none
  | kv :: rest, k => if kv.1 = k then some kv.2 else lookupRep rest k

/-- `text_frame.clear()` keeps the first paragraph's paragraph-level
    properties; rebuilding starts from them. -/
def headProps (tf : TextFrame) : ParaProps :=
  (tf.paras.headD {}).props

/-- Python `data["text"].split(";")` on character lists. -/
def splitSemiList : List Char → List (List Char)
  | [] => [[]]
  | c :: rest =>
      if c = ';' then [] :: splitSemiList rest
      else
        match splitSemiList rest with
        | [] => [[c]]
        | piece :: more => (c :: piece) :: more

def pySplitSemi (s : String) : List String :=
  (splitSemiList s.data).map (fun l => ⟨l⟩)

/-- Rebuild state: completed paragraphs, and the current paragraph `p`
    (always the last one of the frame under construction). -/
abbrev RebuildSt := List Paragraph × Paragraph

/-- One bullet `content` fragment (enumerate body of the `is_bullet` branch):
    skip blank fragments; reuse `p` only for the first fragment when `p` has
    no runs, otherwise `add_paragraph()`; set level 0; add the bulleted run. -/
def bulletStep (formatting : Fmt) (st : RebuildSt) (i : Nat) (content : String) :
    RebuildSt :=
  if pyStrip content = "" then st
  else
    let runTxt := "• " ++ pyStrip content
    if i = 0 ∧ st.2.runs = [] then
      (st.1, { props := { st.2.props with level := 0 },
               runs := st.2.runs ++ [mkRunApplied runTxt formatting] })
    else
      (st.1 ++ [st.2],
       { props := { level := 0 }, runs := [mkRunApplied runTxt formatting] })

def bulletFold (formatting : Fmt) : List String → Nat → RebuildSt → RebuildSt
  | [], _, st => st
  | content :: rest, i, st =>
      bulletFold formatting rest (i + 1) (bulletStep formatting st i content)

/-- One `part` of the regex split (the rebuild loop body of
    `process_text_frame`): empty parts skipped; parts that are plan keys are
    replaced (bullet or plain); static parts are re-emitted only when they
    strip to something nonempty or are exactly a newline. -/
def rebuildStep (reps : List (String × RepData)) (st : RebuildSt) (part : String) :
    RebuildSt :=
  if part = "" then st
  else
    match lookupRep reps part with
    | some data =>
        if data.is_bullet then
          bulletFold data.formatting (pySplitSemi data.text) 0 st
        else
          (st.1, { st.2 with runs := st.2.runs ++ [mkRunApplied data.text data.formatting] })
    | none =>
        if pyStrip part ≠ "" ∨ part = "\n" then
          (st.1, { st.2 with runs := st.2.runs ++ [staticRun part] })
        else st

/-- `process_text_frame(text_frame, replacements)` (ppt_utils.py 25-150):
    skip when the stripped frame text is empty or contains no plan key;
    if the text is exactly one key, clear and emit that single run;
    otherwise split on the token pattern, clear, and rebuild linearly. -/
def process_text_frame (tf : TextFrame) (reps : List (String × RepData)) :
    TextFrame :=
  let current_text := pyStrip tf.text
  if current_text = "" then tf
  else
    let found_keys := (reps.map Prod.fst).filter (fun k => substrB k current_text)
    if found_keys = [] then tf
    else if found_keys.length = 1 ∧ found_keys.headD "" = current_text then
      let data := (lookupRep reps current_text).getD default
      { paras := [{ props := headProps tf,
                    runs := [mkRunApplied data.text data.formatting] }] }
    else
      let parts := pySplitTokens current_text
      let st := parts.foldl (rebuildStep reps) ([], { props := headProps tf, runs := [] })
      { paras := st.1 ++ [st.2] }

/-! ## Regex-lite matchers for the fixed token families
    (`re.search(..., re.IGNORECASE)` specialised to the patterns of
    ppt_processor.py; literals never contain whitespace or digits, so the
    greedy `\s+`/`\d+` steps need no backtracking). -/

/-- Consume a literal, case-insensitively. -/
def matchLitCI : List Char → List Char → Option (List Char)
  | [], cs => some cs
  | _ :: _, [] => none
  | l :: ls, c :: cs =>
      if charLowerAscii l = charLowerAscii c then matchLitCI ls cs else none

/-- Consume `\s+` (greedy). -/
def matchWs1 : List Char → Option (List Char)
  | [] => none
  | c :: rest => if isPyWs c then some (rest.dropWhile isPyWs) else none

def digitsToNat (ds : List Char) : Nat :=
  ds.foldl (fun n c => n * 10 + (c.toNat - '0'.toNat)) 0

/-- Consume `(\d+)` (greedy), returning its value. -/
def matchDigits1 (cs : List Char) : Option (Nat × List Char) :=
  let ds := cs.takeWhile Char.isDigit
  if ds = [] then none else some (digitsToNat ds, cs.dropWhile Char.isDigit)

/-- Consume the literal words of a title pattern, separated by `\s+`. -/
def matchLitsWs : List (List Char) → List Char → Option (List Char)
  | [], cs => some cs
  | [l], cs => matchLitCI l cs
  | l :: l2 :: ls, cs =>
      match matchLitCI l cs with
      | none => none
      | some cs1 =>
          match matchWs1 cs1 with
          | none => none
          | some cs2 => matchLitsWs (l2 :: ls) cs2

/-- Try `\{\{ lit (\s+ lit)* \s+ (\d+) \}\}` anchored at `cs`. -/
def matchTitleAt (lits : List (List Char)) (cs : List Char) : Option Nat :=
  match matchLitCI ['\x7b', '\x7b'] cs with
  | none => none
  | some cs1 =>
      match matchLitsWs lits cs1 with
      | none => none
      | some cs2 =>
          match matchWs1 cs2 with
          | none => none
          | some cs3 =>
              match matchDigits1 cs3 with
              | none => none
              | some (n, cs4) =>
                  match matchLitCI ['\x7d', '\x7d'] cs4 with
                  | none => none
                  | some _ => some n

/-- `re.search`: leftmost position wins. -/
def searchTitleList (lits : List (List Char)) : List Char → Option Nat
  | [] => none
  | c :: rest =>
      match matchTitleAt lits (c :: rest) with
      | some n => some n
      | none => searchTitleList lits rest

def searchTitle (lits : List String) (s : String) : Option Nat :=
  searchTitleList (lits.map String.data) s.data

/-- Try `\{\{pr(\d+)\}\}` anchored at `cs` (case-insensitive). -/
def matchPrAt (cs : List Char) : Option Nat :=
  match matchLitCI ['\x7b', '\x7b', 'p', 'r'] cs with
  | none => none
  | some cs1 =>
      match matchDigits1 cs1 with
      | none => none
      | some (n, cs2) =>
          match matchLitCI ['\x7d', '\x7d'] cs2 with
          | none => none
          | some _ => some n

def searchPrList : List Char → Option Nat
  | [] => none
  | c :: rest =>
      match matchPrAt (c :: rest) with
      | some n => some n
      | none => searchPrList rest

/-- `re.search(r"\{\{pr(\d+)\}\}", text, re.IGNORECASE)`. -/
def searchPr (s : String) : Option Nat := searchPrList s.data

/-! ## Records (`UseCase` of data_loader.py; one field per COLUMN_MAPPING entry) -/

structure Case where
  business_unit : String := ""
  adoption_date : String := ""
  status_update : String := ""
  title : String := ""
  owner : String := ""
  business_contacts : String := ""
  affected_key_users : String := ""
  delivery_date : String := ""
  heatmap_status : String := ""
  line_of_business : String := ""
  owner_email : String := ""
  value_kpis : String := ""
  scope : String := ""
  problem_statement : String := ""
  use_case_type : String := ""
  overall_status : String := ""
  traffic_light : String := ""
  overall_completeness : String := ""
deriving DecidableEq, Repr, Inhabited

/-! ## Heatmap region configuration (`HEATMAP_CONFIGS` of ppt_processor.py).
    The title regex `\{\{ lit (\s+ lit)* \s+ (\d+) \}\}` is represented by its
    literal words `titleLits`; the `.format(idx=...)` key builders are
    represented as functions of the index. -/

structure HeatmapConfig where
  name : String
  filter : String
  slides : List Nat
  titleLits : List String
  fmtTitle : Nat → String
  fmtStatus : Nat → String
  keyOwner : String
  fmtDateD : Nat → String
  fmtDateA : Nat → String
  fmtCompleteness : Nat → String

def FMT_TITLE : Fmt := { bold := some true, font_size := some 7, color := some ⟨0, 176, 240⟩ }

def FMT_DATE : Fmt := { bold := some true, font_size := some 7, color := some ⟨0, 0, 0⟩ }

def FMT_HM_DATE : Fmt := { font_size := some 10, bold := some false, color := some ⟨0, 0, 0⟩ }

def FMT_SMALL_BLACK : Fmt := { font_size := some 7, color := some ⟨0, 0, 0⟩ }

def marketingConfig : HeatmapConfig where
  name := "Marketing"
  filter := "Marketing"
  slides := [1, 2]
  titleLits := ["Marketing", "USE", "CASE", "Title"]
  fmtTitle := fun idx => "\x7b\x7bMarketing USE CASE Title " ++ toString idx ++ "\x7d\x7d"
  fmtStatus := fun idx => "\x7b\x7bStatusupdateUC" ++ toString idx ++ "Marketing\x7d\x7d"
  keyOwner := "\x7b\x7bUseCaseOwnerMarketing\x7d\x7d"
  fmtDateD := fun idx => "\x7b\x7bMD" ++ toString idx ++ "\x7d\x7d"
  fmtDateA := fun idx => "\x7b\x7bMA" ++ toString idx ++ "\x7d\x7d"
  fmtCompleteness := fun idx => "\x7b\x7bOCM" ++ toString idx ++ "\x7d\x7d"

def salesConfig : HeatmapConfig where
  name := "Sales"
  filter := "Sales"
  slides := [3, 4]
  titleLits := ["SALES", "USE", "CASE", "Title"]
  fmtTitle := fun idx => "\x7b\x7bSALES USE CASE Title " ++ toString idx ++ "\x7d\x7d"
  fmtStatus := fun idx => "\x7b\x7bStatusupdateUC" ++ toString idx ++ "Sales\x7d\x7d"
  keyOwner := "\x7b\x7bUseCaseOwnerSales\x7d\x7d"
  fmtDateD := fun idx => "\x7b\x7bSD" ++ toString idx ++ "\x7d\x7d"
  fmtDateA := fun idx => "\x7b\x7bSA" ++ toString idx ++ "\x7d\x7d"
  fmtCompleteness := fun idx => "\x7b\x7bOCS" ++ toString idx ++ "\x7d\x7d"

def complianceConfig : HeatmapConfig where
  name := "Compliance"
  filter := "Compliance"
  slides := [5]
  titleLits := ["Compliance", "USE", "CASE", "Title"]
  fmtTitle := fun idx => "\x7b\x7bCompliance USE CASE Title " ++ toString idx ++ "\x7d\x7d"
  fmtStatus := fun idx => "\x7b\x7bStatusupdateUC" ++ toString idx ++ "Compliance\x7d\x7d"
  keyOwner := "\x7b\x7bUseCaseOwnerCompliance\x7d\x7d"
  fmtDateD := fun idx => "\x7b\x7bCOD" ++ toString idx ++ "\x7d\x7d"
  fmtDateA := fun idx => "\x7b\x7bCOA" ++ toString idx ++ "\x7d\x7d"
  fmtCompleteness := fun idx => "\x7b\x7bOCC" ++ toString idx ++ "\x7d\x7d"

def customerSuccessConfig : HeatmapConfig where
  name := "Customer Success"
  filter := "Customer Success"
  slides := [6]
  titleLits := ["CS", "USE", "CASE", "Title"]
  fmtTitle := fun idx => "\x7b\x7bCS USE CASE Title " ++ toString idx ++ "\x7d\x7d"
  fmtStatus := fun idx => "\x7b\x7bStatusupdateUC" ++ toString idx ++ "CS\x7d\x7d"
  keyOwner := "\x7b\x7bUseCaseOwnerCS\x7d\x7d"
  fmtDateD := fun idx => "\x7b\x7bCUD" ++ toString idx ++ "\x7d\x7d"
  fmtDateA := fun idx => "\x7b\x7bCUA" ++ toString idx ++ "\x7d\x7d"
  fmtCompleteness := fun idx => "\x7b\x7bOCCS" ++ toString idx ++ "\x7d\x7d"

def financeConfig : HeatmapConfig where
  name := "Finance"
  filter := "Finance"
  slides := [7]
  titleLits := ["F", "USE", "CASE", "Title"]
  fmtTitle := fun idx => "\x7b\x7bF USE CASE Title " ++ toString idx ++ "\x7d\x7d"
  fmtStatus := fun idx => "\x7b\x7bStatusupdateUC" ++ toString idx ++ "F\x7d\x7d"
  keyOwner := "\x7b\x7bUseCaseOwnerF\x7d\x7d"
  fmtDateD := fun idx => "\x7b\x7bFD" ++ toString idx ++ "\x7d\x7d"
  fmtDateA := fun idx => "\x7b\x7bFA" ++ toString idx ++ "\x7d\x7d"
  fmtCompleteness := fun idx => "\x7b\x7bOCF" ++ toString idx ++ "\x7d\x7d"

def HEATMAP_CONFIGS : List HeatmapConfig :=
  [marketingConfig, salesConfig, complianceConfig, customerSuccessConfig, financeConfig]

/-! ## Contextual heatmap-cell resolution (`process_heatmap_cell`, lines 464-512) -/

/-- Completeness display format: green when the value contains "100%". -/
def compFmtOf (comp_val : String) : Fmt :=
  if substrB "100%" comp_val then { font_size := some 10, color := some ⟨87, 162, 55⟩, bold := some false }
  else { font_size := some 10, color := some ⟨0, 0, 0⟩, bold := some false }

/-- The replacement plan built inside `process_heatmap_cell` once the title
    regex captured `idx`; `none` when `idx - 1` (as a Python int) is outside
    `range(len(cases))`, in which case no replacement is emitted. -/
def heatmapReplacements (idx : Nat) (cases : List Case) (config : HeatmapConfig) :
    Option (List (String × RepData)) :=
  if (0 : Int) ≤ (idx : Int) - 1 ∧ (idx : Int) - 1 < cases.length then
    let case := cases.getD (idx - 1) default
    some [
      (config.fmtTitle idx, { text := case.title, formatting := FMT_TITLE }),
      (config.fmtStatus idx, { text := case.status_update, formatting := FMT_SMALL_BLACK }),
      (config.keyOwner, { text := case.owner, formatting := FMT_SMALL_BLACK }),
      (config.fmtDateD idx, { text := case.delivery_date, formatting := FMT_HM_DATE }),
      (config.fmtDateA idx, { text := case.adoption_date, formatting := FMT_HM_DATE }),
      (config.fmtCompleteness idx,
        { text := case.overall_completeness, formatting := compFmtOf case.overall_completeness })]
  else none

/-- `process_heatmap_cell(text_frame, cases, config)`: scan the frame text for
    the title token; on an in-range captured index, resolve the whole pattern
    family for that record through `process_text_frame`; otherwise leave the
    frame untouched. -/
def process_heatmap_cell (tf : TextFrame) (cases : List Case) (config : HeatmapConfig) :
    TextFrame :=
  match searchTitle config.titleLits tf.text with
  | none => tf
  | some idx =>
      match heatmapReplacements idx cases config with
      | some reps => process_text_frame tf reps
      | none => tf

/-! ## Conditional Styling Engine -/

/-- Parse the current lifecycle step from a (stripped) heatmap-status string:
    `re.match(r"^(\d+)\.", s)` — leading digits followed by a period; no match
    means step 0 (ppt_processor.py lines 269-274). -/
def parse_step (heatmap_status : String) : Nat :=
  let s := pyStrip heatmap_status
  match matchDigits1 s.data with
  | some (n, rest) =>
      match rest with
      | '.' :: _ => n
      | _ => 0
  | none => 0

def COLOR_LIGHT_GREEN : Color := ⟨226, 239, 217⟩
def COLOR_DARK_GREEN : Color := ⟨87, 162, 55⟩
def COLOR_WHITE : Color := ⟨255, 255, 255⟩

/-- A table cell: solid fill color (if set) plus its text frame. -/
structure Cell where
  fill : Option Color := none
  frame : TextFrame := {}
deriving DecidableEq, Repr, Inhabited

/-- Fill for one stage column (ppt_processor.py lines 288-293). -/
def stepFill (step_col current_step : Nat) : Color :=
  if step_col < current_step then COLOR_LIGHT_GREEN
  else if step_col = current_step then COLOR_DARK_GREEN
  else COLOR_WHITE

/-- `for step_col in range(1, 9): if step_col >= len(row.cells): break; ...`:
    color cells 1..8 of the row (cell 0 and cells past index 8 untouched). -/
def colorCellsFrom (current_step : Nat) : Nat → List Cell → List Cell
  | _, [] => []
  | i, c :: rest =>
      (if 1 ≤ i ∧ i ≤ 8 then { c with fill := some (stepFill i current_step) } else c)
        :: colorCellsFrom current_step (i + 1) rest

def colorHeatmapRow (cells : List Cell) (current_step : Nat) : List Cell :=
  colorCellsFrom current_step 0 cells

/-- Traffic-light color of a status value: case-insensitive substring tests in
    fixed priority order (ppt_processor.py lines 530-541). -/
def trafficColorOf (traffic_light : String) : Color :=
  let color_val := pyLower (pyStrip traffic_light)
  if substrB "green" color_val then ⟨87, 162, 55⟩
  else if substrB "red" color_val then ⟨255, 0, 0⟩
  else if substrB "yellow" color_val then ⟨247, 203, 84⟩
  else if substrB "grey" color_val ∨ substrB "gray" color_val then ⟨128, 128, 128⟩
  else ⟨200, 200, 200⟩

/-- `process_traffic_light_placeholder(shape_or_cell, cases)` (lines 514-548):
    on an in-range `\{\{prN\}\}` match, set the solid fill from the record's
    status and clear the cell's text (`text_frame.text = ""`). -/
def process_traffic_light_placeholder (cell : Cell) (cases : List Case) : Cell :=
  match searchPr cell.frame.text with
  | none => cell
  | some idx =>
      if (0 : Int) ≤ (idx : Int) - 1 ∧ (idx : Int) - 1 < cases.length then
        let case := cases.getD (idx - 1) default
        { fill := some (trafficColorOf case.traffic_light),
          frame := { paras := [{ props := headProps cell.frame, runs := [] }] } }
      else cell

/-! ## Cleanup Pass (`cleanup_unused_placeholders` / `clean_frame`, lines 610-663) -/

/-- `pattern.fullmatch(stripped)` for `\{\{.*?\}\}` with DOTALL: the whole
    string is one delimited span. -/
def tokenFullmatch (s : String) : Bool :=
  startsWithB s "\x7b\x7b" && endsWithB s "\x7d\x7d" && decide (4 ≤ s.data.length)

/-- `pattern.search(stripped)`: some complete token occurs somewhere. -/
def tokenSearch (s : String) : Bool := (findToken s.data).isSome

/-- Strategy 2 on one run: `pattern.subn(" ", run.text)` guarded by
    `"\x7b\x7b" in run.text`. -/
def cleanRunText (t : String) : String :=
  if substrB "\x7b\x7b" t then (pySubn t).1 else t

/-- `clean_frame`'s per-paragraph body: Strategy 1 (whole-paragraph clearing,
    first run becomes a single space, later runs blanked) when the stripped
    paragraph text starts with `\x7b\x7b`, ends with `\x7d\x7d`, matches the
    token pattern and the paragraph has runs; otherwise Strategy 2 (in-place
    token substitution run by run). -/
def cleanParagraph (p : Paragraph) : Paragraph :=
  let stripped := pyStrip p.text
  if startsWithB stripped "\x7b\x7b" ∧ endsWithB stripped "\x7d\x7d" ∧
      (tokenFullmatch stripped ∨ tokenSearch stripped) ∧ p.runs ≠ [] then
    { p with runs :=
        { (p.runs.headD default) with text := " " } ::
          p.runs.tail.map (fun r => { r with text := "" }) }
  else
    { p with runs := p.runs.map (fun r => { r with text := cleanRunText r.text }) }

/-- `clean_frame(tf)`: apply the two strategies to every paragraph. -/
def clean_frame (tf : TextFrame) : TextFrame :=
  { paras := tf.paras.map cleanParagraph }

/-- The document-wide sweep: every frame with nonempty text is cleaned
    (`if shape.text_frame.text:` guard). -/
def cleanup_unused_placeholders (prs : List (List TextFrame)) : List (List TextFrame) :=
  prs.map (fun slide => slide.map (fun tf => if tf.text ≠ "" then clean_frame tf else tf))

/-! ## Deck Cardinality Adjuster -/

/-- A shape as carried by the slide's element tree: its structural identity
    (shape id and name) plus the rest of the element, abstracted. -/
structure Shape where
  id : Nat := 0
  name : String := ""
  payload : String := ""
deriving DecidableEq, Repr, Inhabited

structure SlideSh where
  shapes : List Shape := []
deriving DecidableEq, Repr, Inhabited

structure Prs where
  slides : List SlideSh := []
deriving DecidableEq, Repr, Inhabited

/-- `copy_shape(shape, dest_slide)` (ppt_utils.py 167-179):
    `copy.deepcopy(shape.element)` reproduces the element verbatim — shape id
    and name included — and the copy is appended to the destination tree. -/
def copy_shape (shape : Shape) : Shape := shape

/-- `duplicate_slide(prs, i)` (ppt_utils.py 152-165): append a new slide and
    copy every shape of the source slide onto it.  (The layout placeholders a
    fresh slide inherits are irrelevant to identity and elided.) -/
def duplicate_slide (prs : Prs) (source_slide_index : Nat) : Prs :=
  let source := prs.slides.getD source_slide_index default
  { slides := prs.slides ++ [{ shapes := source.shapes.map copy_shape }] }

def allShapes (prs : Prs) : List Shape :=
  (prs.slides.map SlideSh.shapes).flatten

/-- Modelled from the spec: `delete_slide` is imported from
    `backend.ppt_utils` by ppt_processor.py but its definition is not among
    the source files; the spec's Document Model API provides
    "delete a slide by index", i.e. removal of the index's entry from the
    ordered slide sequence. -/
def delete_slide (slides : List α) (idx : Nat) : List α :=
  slides.eraseIdx idx

/-- The descending index sequence `range(total - 1, delete_start - 1, -1)`:
    `count` indices starting at `hi` and going down. -/
def downRange : Nat → Nat → List Nat
  | _, 0 => []
  | hi, k + 1 => hi :: downRange (hi - 1) k

/-- A one-pager slide for the cardinality model: its original template
    position, and which ordered record (if any) was merged into it. -/
structure OPSlide where
  templatePos : Nat
  filledWith : Option Nat := none
deriving DecidableEq, Repr, Inhabited

def start_op_index : Nat := 10

/-- Fill the slide at `slide_idx` with ordered record `rec`. -/
def fill_case (slides : List OPSlide) (slide_idx rec : Nat) : List OPSlide :=
  match slides[slide_idx]? with
  | some s => slides.set slide_idx { s with filledWith := some rec }
  | none => slides

/-- The fill loop (ppt_processor.py 405-432): `for i, uc in enumerate(...)`,
    breaking (without error) when `start_op_index + i` runs past the deck;
    returns the deck and `cases_processed`. -/
def fillOnePagersAux (slides : List OPSlide) (i : Nat) : Nat → List OPSlide × Nat
  | 0 => (slides, 0)
  | r + 1 =>
      if slides.length ≤ start_op_index + i then (slides, 0)
      else
        let slides1 := fill_case slides (start_op_index + i) i
        let res := fillOnePagersAux slides1 (i + 1) r
        (res.1, res.2 + 1)

/-- Phases 6-7 of `process_ppt` (lines 405-446): fill one-pagers for `r`
    ordered records, then delete every slide past the last filled one, from
    the highest index down. -/
def onePagerPhase (slides : List OPSlide) (r : Nat) : List OPSlide :=
  let res := fillOnePagersAux slides 0 r
  let cases_processed := res.2
  let last_filled_index := start_op_index + cases_processed - 1
  let total_slides := res.1.length
  let delete_start := last_filled_index + 1
  if delete_start < total_slides then
    (downRange (total_slides - 1) (total_slides - delete_start)).foldl delete_slide res.1
  else res.1

/-- The template deck for the cardinality model: `n` slides, none filled. -/
def initialDeck (n : Nat) : List OPSlide :=
  (List.range n).map (fun j => { templatePos := j })

/-! ## Record Source (`load_data`, data_loader.py 54-107) and pipeline skeleton -/

/-- One CSV row as produced by `csv.DictReader`: header → value. -/
abbrev Row := List (String × String)

/-- `row.get(csv_col, "")`. -/
def rowGet (row : Row) (k : String) : String :=
  ((row.find? (fun kv => kv.1 = k)).map Prod.snd).getD ""

/-- Build a `UseCase` from a row: each COLUMN_MAPPING entry is fetched with
    default "" and stripped (data_loader.py 80-87). -/
def mkUseCase (row : Row) : Case where
  business_unit := pyStrip (rowGet row "cr4e2_businessunit@OData.Community.Display.V1.FormattedValue")
  adoption_date := pyStrip (rowGet row "cr4e2_businessadoptiondate")
  status_update := pyStrip (rowGet row "cr4e2_lateststatusupdate")
  title := pyStrip (rowGet row "cr4e2_usecasetitle")
  owner := pyStrip (rowGet row "cr4e2_owner")
  business_contacts := pyStrip (rowGet row "cr4e2_businesscontacts")
  affected_key_users := pyStrip (rowGet row "cr4e2_affectedkeyusers")
  delivery_date := pyStrip (rowGet row "cr4e2_deliverydate")
  heatmap_status := pyStrip (rowGet row "cr4e2_heatmamapping@OData.Community.Display.V1.FormattedValue")
  line_of_business := pyStrip (rowGet row "cr4e2_lineofbusiness")
  owner_email := pyStrip (rowGet row "cr4e2_owneremail")
  value_kpis := pyStrip (rowGet row "cr4e2_value")
  scope := pyStrip (rowGet row "cr4e2_scope")
  problem_statement := pyStrip (rowGet row "cr4e2_problemstatement")
  use_case_type := pyStrip (rowGet row "cr4e2_usecasetype@OData.Community.Display.V1.FormattedValue")
  overall_status := pyStrip (rowGet row "cr4e2_overallstatus")
  traffic_light := pyStrip (rowGet row "cr4e2_pr@OData.Community.Display.V1.FormattedValue")
  overall_completeness := pyStrip (rowGet row "cr4e2_overallcompleteness")

/-- Append a record to its group bucket (`defaultdict(list)`, insertion
    order preserved). -/
def addToGroup (groups : List (String × List Case)) (k : String) (c : Case) :
    List (String × List Case) :=
  if (groups.find? (fun g => g.1 = k)).isSome then
    groups.map (fun g => if g.1 = k then (g.1, g.2 ++ [c]) else g)
  else groups ++ [(k, [c])]

/-- `load_data(csv_path)`: group rows by `line_of_business` ("Unknown" when
    empty).  A missing file or any exception while reading/parsing is the
    `Except.error` input, absorbed into the empty mapping
    (data_loader.py 102-107). -/
def load_data (input : Except String (List Row)) : List (String × List Case) :=
  match input with
  | Except.error _ => []
  | Except.ok rows =>
      rows.foldl
        (fun groups row =>
          let uc := mkUseCase row
          if uc.line_of_business ≠ "" then addToGroup groups uc.line_of_business uc
          else addToGroup groups "Unknown" uc)
        []

/-- Slide-1 configuration (`LOB_CONFIGS` in `process_ppt`): name, business-unit
    filter and the three placeholder builders. -/
structure LobConfig where
  name : String
  filter : String
  pTitle : Nat → String
  pDel : Nat → String
  pAdopt : Nat → String

def LOB_CONFIGS : List LobConfig :=
  [{ name := "Marketing", filter := "Marketing",
     pTitle := fun i => "Marketing USE CASE Title " ++ toString i,
     pDel := fun i => "MD" ++ toString i, pAdopt := fun i => "MA" ++ toString i },
   { name := "Sales", filter := "Sales",
     pTitle := fun i => "SALES USE CASE Title " ++ toString i,
     pDel := fun i => "SD" ++ toString i, pAdopt := fun i => "SA" ++ toString i },
   { name := "Compliance", filter := "Compliance",
     pTitle := fun i => "Compliance USE CASE Title " ++ toString i,
     pDel := fun i => "COD" ++ toString i, pAdopt := fun i => "COA" ++ toString i },
   { name := "Customer Success", filter := "Customer Success",
     pTitle := fun i => "Customer Success USE CASE Title " ++ toString i,
     pDel := fun i => "CUD" ++ toString i, pAdopt := fun i => "CUA" ++ toString i },
   { name := "Finance", filter := "Finance",
     pTitle := fun i => "Finance USE CASE Title " ++ toString i,
     pDel := fun i => "FD" ++ toString i, pAdopt := fun i => "FA" ++ toString i }]

/-- The slide-1 entries for one LoB: enumerate the displayed cases, keys are
    1-based (`process_ppt` lines 183-213). -/
def lobEntries (config : LobConfig) (cases : List Case) : List (String × RepData) :=
  (cases.enum.map (fun ic =>
    let idx := ic.1 + 1
    [("\x7b\x7b" ++ config.pTitle idx ++ "\x7d\x7d",
       ({ text := ic.2.title, formatting := FMT_TITLE } : RepData)),
     ("\x7b\x7b" ++ config.pDel idx ++ "\x7d\x7d",
       ({ text := ic.2.delivery_date, formatting := FMT_DATE } : RepData)),
     ("\x7b\x7b" ++ config.pAdopt idx ++ "\x7d\x7d",
       ({ text := ic.2.adoption_date, formatting := FMT_DATE } : RepData))])).flatten

/-- The full slide-1 replacement dictionary: per LoB, filter by business unit
    (substring) and by `use_case_type == "CDP Business Adoption"`. -/
def slide1Replacements (all_cases : List Case) : List (String × RepData) :=
  (LOB_CONFIGS.map (fun config =>
    lobEntries config
      ((all_cases.filter (fun c => substrB config.filter c.business_unit)).filter
        (fun c => pyStrip c.use_case_type = "CDP Business Adoption")))).flatten

/-- `ordered_cases` for the one-pager phase (lines 390-397): per heatmap
    config, all cases whose business unit contains the filter, concatenated. -/
def orderedCases (all_cases : List Case) : List Case :=
  (HEATMAP_CONFIGS.map (fun config =>
    all_cases.filter (fun c => substrB config.filter c.business_unit))).flatten

def FMT_OP_TEXT : Fmt := { font_size := some 10, color := some ⟨0, 0, 0⟩ }

/-- The static one-pager plan for one record (lines 416-426). -/
def opReplacements (uc : Case) : List (String × RepData) :=
  [("\x7b\x7bUseCaseOnePagerTitel1\x7d\x7d",
     { text := uc.title, formatting := { bold := some true, color := some ⟨0, 176, 240⟩ } }),
   ("\x7b\x7bUseCaseOnePagerPB1\x7d\x7d", { text := uc.problem_statement, formatting := FMT_OP_TEXT }),
   ("\x7b\x7bUseCaseOnePagerScope1\x7d\x7d", { text := uc.scope, formatting := FMT_OP_TEXT }),
   ("\x7b\x7bUseCaseOnePagerV&KPI1\x7d\x7d", { text := uc.value_kpis, formatting := FMT_OP_TEXT }),
   ("\x7b\x7bUseCaseOnePagerBU1\x7d\x7d", { text := uc.line_of_business, formatting := FMT_OP_TEXT }),
   ("\x7b\x7bUseCaseOnePagerBSU1\x7d\x7d", { text := uc.business_unit, formatting := FMT_OP_TEXT }),
   ("\x7b\x7bUseCaseOnePagerOwner1\x7d\x7d", { text := uc.owner, formatting := FMT_OP_TEXT }),
   ("\x7b\x7bUseCaseOnePagerScopeBC\x7d\x7d", { text := uc.business_contacts, formatting := FMT_OP_TEXT }),
   ("\x7b\x7bUseCaseOnePagerScopeAFK\x7d\x7d", { text := uc.affected_key_users, formatting := FMT_OP_TEXT })]

/-- The one-pager fill loop on the real deck representation (slides as lists
    of text frames): fill slide `start_op_index + i` through
    `process_text_frame`, break when slides run out. -/
def onePagerFillDeck : List (List TextFrame) → Nat → List Case →
    List (List TextFrame) × Nat
  | prs, _, [] => (prs, 0)
  | prs, i, uc :: rest =>
      if prs.length ≤ start_op_index + i then (prs, 0)
      else
        let slide := (prs.getD (start_op_index + i) []).map
          (fun tf => process_text_frame tf (opReplacements uc))
        let prs1 := prs.set (start_op_index + i) slide
        let res := onePagerFillDeck prs1 (i + 1) rest
        (res.1, res.2 + 1)

/-- Phases 6-7 on the deck: fill, then the descending deletion loop. -/
def onePagerDeck (prs : List (List TextFrame)) (cases : List Case) :
    List (List TextFrame) :=
  let res := onePagerFillDeck prs 0 cases
  let delete_start := start_op_index + res.2
  if delete_start < res.1.length then
    (downRange (res.1.length - 1) (res.1.length - delete_start)).foldl delete_slide res.1
  else res.1

/-- `process_ppt(csv_path, output_folder)` control-flow skeleton
    (ppt_processor.py 118-462): the record source is read first and its
    failures are absorbed into an empty mapping; a missing template raises
    (`FileNotFoundError`, modelled as the `none` template and an
    `Except.error`); afterwards the pipeline — slide-1 fill, one-pager
    fill/shrink, cleanup — is total and always reaches the save.  The
    heatmap and foundational phases (lines 228-381) act pointwise on frames
    and cells through `process_heatmap_cell` and
    `process_traffic_light_placeholder`, modelled above; they neither raise
    nor change the deck's slide count, so they are elided from this
    skeleton. -/
def process_ppt (csv : Except String (List Row))
    (template : Option (List (List TextFrame))) :
    Except String (List (List TextFrame)) :=
  let raw_data := load_data csv
  let all_cases := (raw_data.map Prod.snd).flatten
  let replacements := slide1Replacements all_cases
  match template with
  | none => Except.error "Vorlage nicht gefunden"
  | some prs =>
      let prs1 := prs.enum.map (fun isl =>
        if isl.1 = 0 then isl.2.map (fun tf => process_text_frame tf replacements)
        else isl.2)
      let prs2 := onePagerDeck prs1 (orderedCases all_cases)
      Except.ok (cleanup_unused_placeholders prs2)

/-! ## Claim theorems -/

/-! ### C6: fragment re-emission in the rebuild -/

def tf6 : TextFrame :=
  ⟨[⟨{}, [⟨"\x7b\x7bTitle 1\x7d\x7d \x7b\x7bTitle 2\x7d\x7d", {}⟩]⟩]⟩

def tf6n : TextFrame :=
  ⟨[⟨{}, [⟨"\x7b\x7bTitle 1\x7d\x7d", {}⟩]⟩, ⟨{}, [⟨"\x7b\x7bTitle 2\x7d\x7d", {}⟩]⟩]⟩

def reps6 : List (String × RepData) :=
  [("\x7b\x7bTitle 1\x7d\x7d", ⟨"Alpha", {}, false⟩),
   ("\x7b\x7bTitle 2\x7d\x7d", ⟨"Bravo", {}, false⟩)]

/-- C6 (counterexample): rewriting the paragraph `{{Title 1}} {{Title 2}}`
    under the plan Title 1 ↦ "Alpha", Title 2 ↦ "Bravo" does NOT yield the
    runs "Alpha", " ", "Bravo": the single-space fragment between the tokens
    is dropped, not re-emitted as its own run. -/
theorem c6_counterexample :
    ¬ ((process_text_frame tf6 reps6).paras.map (fun p => p.runs.map Run.text)
        = [["Alpha", " ", "Bravo"]]) := by decide

/-- C6 (amended): the paragraph `{{Title 1}} {{Title 2}}` rewrites to the two
    runs "Alpha", "Bravo" — the whitespace-only inter-token fragment is
    dropped, because a whitespace-only fragment is re-emitted only when it is
    exactly the newline character (a real line break, as when the two tokens
    sit on separate paragraphs, in which case "\n" is re-emitted as its own
    run); purely empty fragments are dropped. -/
theorem c6_fragment_rules :
    ((process_text_frame tf6 reps6).paras.map (fun p => p.runs.map Run.text)
        = [["Alpha", "Bravo"]])
    ∧ ((process_text_frame tf6n reps6).paras.map (fun p => p.runs.map Run.text)
        = [["Alpha", "\n", "Bravo"]]) := by decide

/-! ### C2: structural identity under duplication -/

def prsC2 : Prs := ⟨[⟨[⟨2, "Title 1", "sp"⟩]⟩]⟩

/-- C2 (code evaluated at the failing input): duplicating the only slide of a
    presentation whose single shape has id 2 and name "Title 1" yields a
    document with two shapes of id 2 and name "Title 1": `copy_shape` deep
    copies the element verbatim, so neither identifiers nor names of the
    clone are fresh, and the document-wide uniqueness invariant is violated. -/
theorem c2_duplicate_identity :
    ((allShapes (duplicate_slide prsC2 0)).map Shape.id = [2, 2])
    ∧ ¬ ((allShapes (duplicate_slide prsC2 0)).map Shape.id).Nodup
    ∧ ¬ ((allShapes (duplicate_slide prsC2 0)).map Shape.name).Nodup
    ∧ (∀ s : Shape, (copy_shape s).id = s.id ∧ (copy_shape s).name = s.name) := by
  refine ⟨by decide, by decide, by decide, fun s => ⟨rfl, rfl⟩⟩

/-! ### C8: traffic-light coloring -/

/-- C8: on an in-range `\{\{prN\}\}` token, the fill is the status color of
    record N and the cell's visible text becomes empty; the status color is
    decided by case-insensitive substring tests in the fixed priority order
    green → red → yellow → grey/gray → default grey, over five fixed colors. -/
theorem c8_traffic_light (cell : Cell) (cases : List Case) (idx : Nat)
    (hs : searchPr cell.frame.text = some idx)
    (h1 : 1 ≤ idx) (h2 : idx ≤ cases.length) :
    ((process_traffic_light_placeholder cell cases).fill
        = some (trafficColorOf (cases.getD (idx - 1) default).traffic_light))
    ∧ ((process_traffic_light_placeholder cell cases).frame.text = "")
    ∧ (∀ s, substrB "green" (pyLower (pyStrip s)) = true →
        trafficColorOf s = ⟨87, 162, 55⟩)
    ∧ (∀ s, substrB "green" (pyLower (pyStrip s)) = false →
        substrB "red" (pyLower (pyStrip s)) = true →
        trafficColorOf s = ⟨255, 0, 0⟩)
    ∧ (∀ s, substrB "green" (pyLower (pyStrip s)) = false →
        substrB "red" (pyLower (pyStrip s)) = false →
        substrB "yellow" (pyLower (pyStrip s)) = true →
        trafficColorOf s = ⟨247, 203, 84⟩)
    ∧ (∀ s, substrB "green" (pyLower (pyStrip s)) = false →
        substrB "red" (pyLower (pyStrip s)) = false →
        substrB "yellow" (pyLower (pyStrip s)) = false →
        (substrB "grey" (pyLower (pyStrip s)) = true ∨
         substrB "gray" (pyLower (pyStrip s)) = true) →
        trafficColorOf s = ⟨128, 128, 128⟩)
    ∧ (∀ s, substrB "green" (pyLower (pyStrip s)) = false →
        substrB "red" (pyLower (pyStrip s)) = false →
        substrB "yellow" (pyLower (pyStrip s)) = false →
        substrB "grey" (pyLower (pyStrip s)) = false →
        substrB "gray" (pyLower (pyStrip s)) = false →
        trafficColorOf s = ⟨200, 200, 200⟩) := by
  have hin : ((0 : Int) ≤ (idx : Int) - 1 ∧ (idx : Int) - 1 < cases.length) := by omega
  refine ⟨?_, ?_, ?_, ?_, ?_, ?_, ?_⟩
  · simp only [process_traffic_light_placeholder, hs, if_pos hin]
  · simp only [process_traffic_light_placeholder, hs, if_pos hin]
    simp [TextFrame.text, Paragraph.text, myIntercalate]
  · intro s h; simp [trafficColorOf, h]
  · intro s h1' h2'; simp [trafficColorOf, h1', h2']
  · intro s h1' h2' h3'; simp [trafficColorOf, h1', h2', h3']
  · intro s h1' h2' h3' h4'
    rcases h4' with h4' | h4' <;> simp [trafficColorOf, h1', h2', h3', h4']
  · intro s h1' h2' h3' h4' h5'; simp [trafficColorOf, h1', h2', h3', h4', h5']

def prCell : Cell := ⟨none, ⟨[⟨{}, [⟨"\x7b\x7bpr3\x7d\x7d", {}⟩]⟩]⟩⟩

def prCases : List Case :=
  [{ title := "A" }, { title := "B" }, { title := "C", traffic_light := "Red - blocked" }]

/-- C8 (witness): token `\{\{pr3\}\}` with record 3's status "Red - blocked"
    gives the red fill and an empty cell text. -/
theorem c8_witness :
    ((process_traffic_light_placeholder prCell prCases).fill = some ⟨255, 0, 0⟩)
    ∧ ((process_traffic_light_placeholder prCell prCases).frame.text = "") := by
  have h := c8_traffic_light prCell prCases 3 (by decide) (by decide) (by decide)
  refine ⟨?_, h.2.1⟩
  rw [h.1]; decide

/-! ### C7: heatmap stage coloring -/

theorem colorCellsFrom_getElem? (current_step : Nat) :
    ∀ (cells : List Cell) (i j : Nat),
      (colorCellsFrom current_step i cells)[j]? =
        cells[j]?.map (fun c =>
          if 1 ≤ i + j ∧ i + j ≤ 8 then
            { c with fill := some (stepFill (i + j) current_step) }
          else c) := by
  intro cells
  induction cells with
  | nil => intro i j; simp [colorCellsFrom]
  | cons c rest ih =>
    intro i j
    cases j with
    | zero => simp [colorCellsFrom]
    | succ j =>
      simp only [colorCellsFrom, List.getElem?_cons_succ]
      rw [ih (i + 1) j]
      have : i + 1 + j = i + (j + 1) := by omega
      rw [this]

/-- C7: for a row whose record's heatmap status parses (digits-then-period,
    else 0) to stage `s`, every stage column `c` in 1..8 is filled with the
    "completed" light green when `c < s`, the "current" dark green when
    `c = s`, and blank white when `s < c`; consequently `s = 0` blanks all
    eight columns and `s > 8` completes all eight.  Cells outside 1..8 are
    untouched. -/
theorem c7_heatmap_monotonicity (cells : List Cell) (s : String) (c : Nat)
    (h1 : 1 ≤ c) (h2 : c ≤ 8) :
    ((colorHeatmapRow cells (parse_step s))[c]? =
        cells[c]?.map (fun cell => { cell with fill := some (stepFill c (parse_step s)) }))
    ∧ (c < parse_step s → stepFill c (parse_step s) = COLOR_LIGHT_GREEN)
    ∧ (c = parse_step s → stepFill c (parse_step s) = COLOR_DARK_GREEN)
    ∧ (parse_step s < c → stepFill c (parse_step s) = COLOR_WHITE)
    ∧ (parse_step s = 0 → stepFill c (parse_step s) = COLOR_WHITE)
    ∧ (8 < parse_step s → stepFill c (parse_step s) = COLOR_LIGHT_GREEN)
    ∧ ((colorHeatmapRow cells (parse_step s))[0]? = cells[0]?)
    ∧ (parse_step "7. Technical GoLive" = 7)
    ∧ (parse_step "Kickoff planned" = 0) := by
  refine ⟨?_, ?_, ?_, ?_, ?_, ?_, ?_, by decide, by decide⟩
  · rw [colorHeatmapRow, colorCellsFrom_getElem?]
    simp [h1, h2]
  · intro h; simp [stepFill, h]
  · intro h; simp [stepFill, h]
  · intro h
    have hne : ¬ c < parse_step s := by omega
    have hne2 : ¬ c = parse_step s := by omega
    simp [stepFill, hne, hne2]
  · intro h
    have hne : ¬ c < parse_step s := by omega
    have hne2 : ¬ c = parse_step s := by omega
    simp [stepFill, hne, hne2]
  · intro h; simp [stepFill]; omega
  · rw [colorHeatmapRow, colorCellsFrom_getElem?]
    simp

def rowC7 : List Cell := List.replicate 9 (⟨none, ⟨[]⟩⟩ : Cell)

/-- C7 (witness): with heatmap status "7. Technical GoLive", column 2 is
    completed (light green), column 7 is current (dark green), column 8 is
    blank white, and the title cell 0 is untouched. -/
theorem c7_witness :
    ((colorHeatmapRow rowC7 (parse_step "7. Technical GoLive"))[2]?
        = some ⟨some COLOR_LIGHT_GREEN, ⟨[]⟩⟩)
    ∧ ((colorHeatmapRow rowC7 (parse_step "7. Technical GoLive"))[7]?
        = some ⟨some COLOR_DARK_GREEN, ⟨[]⟩⟩)
    ∧ ((colorHeatmapRow rowC7 (parse_step "7. Technical GoLive"))[8]?
        = some ⟨some COLOR_WHITE, ⟨[]⟩⟩)
    ∧ ((colorHeatmapRow rowC7 (parse_step "7. Technical GoLive"))[0]?
        = some ⟨none, ⟨[]⟩⟩) := by
  have ha := c7_heatmap_monotonicity rowC7 "7. Technical GoLive" 2 (by decide) (by decide)
  have hb := c7_heatmap_monotonicity rowC7 "7. Technical GoLive" 7 (by decide) (by decide)
  have hc := c7_heatmap_monotonicity rowC7 "7. Technical GoLive" 8 (by decide) (by decide)
  refine ⟨?_, ?_, ?_, ?_⟩
  · rw [ha.1]; decide
  · rw [hb.1]; decide
  · rw [hc.1]; decide
  · rw [ha.2.2.2.2.2.2.1]; decide

/-! ### C3: index law -/

/-- C3: the contextual resolvers emit a replacement iff the captured 1-based
    index is within the record list (the record used being the `(i-1)`-th);
    for an out-of-range index both the heatmap-cell resolver and the
    traffic-light resolver leave the frame/cell untouched, so the token stays
    in place for the Cleanup Pass. -/
theorem c3_index_law (idx : Nat) (cases : List Case) (config : HeatmapConfig) :
    ((heatmapReplacements idx cases config).isSome ↔ (1 ≤ idx ∧ idx ≤ cases.length))
    ∧ ((heatmapReplacements idx cases config).map (fun plan => (plan.headD default).2.text)
        = if 1 ≤ idx ∧ idx ≤ cases.length
          then some (cases.getD (idx - 1) default).title else none)
    ∧ (∀ tf, searchTitle config.titleLits tf.text = some idx →
        ¬(1 ≤ idx ∧ idx ≤ cases.length) →
        process_heatmap_cell tf cases config = tf)
    ∧ (∀ cell : Cell, searchPr cell.frame.text = some idx →
        ¬(1 ≤ idx ∧ idx ≤ cases.length) →
        process_traffic_light_placeholder cell cases = cell) := by
  have hiff : ((0 : Int) ≤ (idx : Int) - 1 ∧ (idx : Int) - 1 < cases.length)
      ↔ (1 ≤ idx ∧ idx ≤ cases.length) := by omega
  refine ⟨?_, ?_, ?_, ?_⟩
  · by_cases h : 1 ≤ idx ∧ idx ≤ cases.length
    · rw [heatmapReplacements, if_pos (hiff.mpr h)]
      simpa using h
    · rw [heatmapReplacements, if_neg (fun hc => h (hiff.mp hc))]
      simpa using h
  · by_cases h : 1 ≤ idx ∧ idx ≤ cases.length
    · rw [heatmapReplacements, if_pos (hiff.mpr h), if_pos h]
      simp
    · rw [heatmapReplacements, if_neg (fun hc => h (hiff.mp hc)), if_neg h]
      simp
  · intro tf hs hrange
    have hnone : heatmapReplacements idx cases config = none := by
      rw [heatmapReplacements, if_neg (fun hc => hrange (hiff.mp hc))]
    simp [process_heatmap_cell, hs, hnone]
  · intro cell hs hrange
    have hneg : ¬((0 : Int) ≤ (idx : Int) - 1 ∧ (idx : Int) - 1 < cases.length) :=
      fun hc => hrange (hiff.mp hc)
    simp only [process_traffic_light_placeholder, hs]
    rw [if_neg hneg]

def caseC3 : Case := { title := "Solo" }

def tfC3 : TextFrame :=
  ⟨[⟨{}, [⟨"\x7b\x7bMarketing USE CASE Title 5\x7d\x7d", {}⟩]⟩]⟩

def cellC3 : Cell := ⟨none, ⟨[⟨{}, [⟨"\x7b\x7bpr5\x7d\x7d", {}⟩]⟩]⟩⟩

/-- C3 (witness): with one record, captured index 5 is out of range for both
    resolvers: frame and cell are left untouched, tokens intact. -/
theorem c3_witness :
    process_heatmap_cell tfC3 [caseC3] marketingConfig = tfC3
    ∧ process_traffic_light_placeholder cellC3 [caseC3] = cellC3 := by
  have h := c3_index_law 5 [caseC3] marketingConfig
  exact ⟨h.2.2.1 tfC3 (by decide) (by decide),
         h.2.2.2 cellC3 (by decide) (by decide)⟩

/-! ### C4: whitespace normalization -/

def caseAlpha : Case := { title := "Alpha" }

def tfWS1 : TextFrame :=
  ⟨[⟨{}, [⟨"\x7b\x7bMarketing USE CASE Title 1\x7d\x7d", {}⟩]⟩]⟩

def tfWS2 : TextFrame :=
  ⟨[⟨{}, [⟨"\x7b\x7bMarketing USE  CASE Title 1\x7d\x7d", {}⟩]⟩]⟩

/-- C4 (code evaluated at the failing input): two title tokens differing only
    in one internal whitespace run are both DETECTED (the title regex
    tolerates `\s+`, capturing index 1 in both frames), but only the
    single-space spelling is REPLACED: the plan key is built with single
    spaces and looked up by exact substring containment, with no whitespace
    normalization anywhere, so the double-space frame is left completely
    unchanged while the single-space frame is rewritten to "Alpha". -/
theorem c4_whitespace_divergence :
    (searchTitle marketingConfig.titleLits tfWS1.text = some 1)
    ∧ (searchTitle marketingConfig.titleLits tfWS2.text = some 1)
    ∧ ((process_heatmap_cell tfWS1 [caseAlpha] marketingConfig).paras.map
        (fun p => p.runs.map Run.text) = [["Alpha"]])
    ∧ (process_heatmap_cell tfWS2 [caseAlpha] marketingConfig = tfWS2) := by decide

/-! ### C5: frame effect of the run rewrite -/

theorem lookupRep_mem : ∀ (reps : List (String × RepData)) (k : String) (d : RepData),
    lookupRep reps k = some d → (k, d) ∈ reps := by
  intro reps
  induction reps with
  | nil => intro k d h; simp [lookupRep] at h
  | cons kv rest ih =>
    intro k d h
    obtain ⟨k1, v1⟩ := kv
    simp only [lookupRep] at h
    by_cases hk : k1 = k
    · rw [if_pos hk] at h
      have hd := Option.some.inj h
      subst hk; subst hd
      exact List.mem_cons_self _ _
    · rw [if_neg hk] at h
      exact List.mem_cons_of_mem _ (ih k d h)

theorem head_append_same_props (l : List Paragraph) (a b : Paragraph)
    (h : a.props = b.props) :
    ((l ++ [a]).head?.map Paragraph.props) = ((l ++ [b]).head?.map Paragraph.props) := by
  cases l with
  | nil => simp [h]
  | cons x xs => simp

theorem rebuildStep_head (reps : List (String × RepData))
    (hnb : ∀ kv ∈ reps, kv.2.is_bullet = false) (st : RebuildSt) (part : String) :
    (((rebuildStep reps st part).1 ++ [(rebuildStep reps st part).2]).head?.map
        Paragraph.props)
      = ((st.1 ++ [st.2]).head?.map Paragraph.props) := by
  unfold rebuildStep
  by_cases hp : part = ""
  · rw [if_pos hp]
  · rw [if_neg hp]
    cases hlk : lookupRep reps part with
    | none =>
      dsimp only
      by_cases hc : pyStrip part ≠ "" ∨ part = "\n"
      · rw [if_pos hc]
        exact head_append_same_props _ _ _ rfl
      · rw [if_neg hc]
    | some data =>
      dsimp only
      have hb : data.is_bullet = false :=
        hnb (part, data) (lookupRep_mem reps part data hlk)
      rw [if_neg (by simp [hb])]
      exact head_append_same_props _ _ _ rfl

theorem rebuildFold_head (reps : List (String × RepData))
    (hnb : ∀ kv ∈ reps, kv.2.is_bullet = false) :
    ∀ (parts : List String) (st : RebuildSt),
      (((parts.foldl (rebuildStep reps) st).1 ++
          [(parts.foldl (rebuildStep reps) st).2]).head?.map Paragraph.props)
        = ((st.1 ++ [st.2]).head?.map Paragraph.props) := by
  intro parts
  induction parts with
  | nil => intro st; rfl
  | cons p rest ih =>
    intro st
    rw [List.foldl_cons, ih, rebuildStep_head reps hnb]

/-- C5 (amended): `process_text_frame` never modifies a frame none of whose
    text contains a plan key; and — provided no bullet replacement is
    involved — the rebuilt frame's first paragraph keeps the original first
    paragraph's paragraph-level properties (alignment, indentation, spacing,
    level).  Paragraph count and order, however, are NOT preserved in
    general: the rebuild collapses a multi-paragraph frame into its first
    paragraph (see the counterexample). -/
theorem c5_amended (tf : TextFrame) (reps : List (String × RepData)) :
    ((∀ kv ∈ reps, substrB kv.1 (pyStrip tf.text) = false) →
        process_text_frame tf reps = tf)
    ∧ ((∀ kv ∈ reps, kv.2.is_bullet = false) →
        ((process_text_frame tf reps).paras.head?.map Paragraph.props)
          = (tf.paras.head?.map Paragraph.props)) := by
  constructor
  · intro hno
    simp only [process_text_frame]
    by_cases hct : pyStrip tf.text = ""
    · rw [if_pos hct]
    · rw [if_neg hct]
      have hfk : ((reps.map Prod.fst).filter (fun k => substrB k (pyStrip tf.text)))
          = [] := by
        rw [List.filter_eq_nil_iff]
        intro a ha
        obtain ⟨kv, hkv, rfl⟩ := List.mem_map.mp ha
        simp [hno kv hkv]
      rw [hfk]
      simp
  · intro hnb
    simp only [process_text_frame]
    by_cases hct : pyStrip tf.text = ""
    · rw [if_pos hct]
    · rw [if_neg hct]
      have hpe : tf.paras ≠ [] := by
        intro hnil
        apply hct
        have htxt : tf.text = "" := by
          simp [TextFrame.text, hnil, myIntercalate]
        rw [htxt]
        rfl
      obtain ⟨p0, prest, hps⟩ : ∃ p0 prest, tf.paras = p0 :: prest := by
        cases hp : tf.paras with
        | nil => exact absurd hp hpe
        | cons a l => exact ⟨a, l, rfl⟩
      have hhead : headProps tf = p0.props := by
        rw [headProps, hps]
        rfl
      by_cases hfk :
          ((reps.map Prod.fst).filter (fun k => substrB k (pyStrip tf.text))) = []
      · rw [if_pos hfk]
      · rw [if_neg hfk]
        by_cases hex :
            ((reps.map Prod.fst).filter (fun k => substrB k (pyStrip tf.text))).length = 1
            ∧ ((reps.map Prod.fst).filter
                (fun k => substrB k (pyStrip tf.text))).headD "" = pyStrip tf.text
        · rw [if_pos hex]
          simp [hps, hhead]
        · rw [if_neg hex]
          dsimp only
          rw [rebuildFold_head reps hnb]
          simp [hps, hhead]

def tf5 : TextFrame :=
  ⟨[⟨{ alignment := some 1 }, [⟨"\x7b\x7bK\x7d\x7d", {}⟩]⟩,
    ⟨{ alignment := some 2 }, [⟨"static", {}⟩]⟩]⟩

def reps5 : List (String × RepData) := [("\x7b\x7bK\x7d\x7d", ⟨"X", {}, false⟩)]

/-- C5 (counterexample): a two-paragraph frame whose first paragraph is a
    plan key is rebuilt into a SINGLE paragraph — the paragraph count (and
    hence the per-paragraph properties of the second paragraph) is not
    preserved, contradicting the claim that every paragraph-level property,
    paragraph count and order survive the rebuild. -/
theorem c5_counterexample :
    (tf5.paras.length = 2) ∧ ((process_text_frame tf5 reps5).paras.length = 1) := by
  decide

def tfW5 : TextFrame := ⟨[⟨{ alignment := some 3 }, [⟨"hello", {}⟩]⟩]⟩

/-- C5 (witness): a frame containing no plan key is returned untouched, and
    the first paragraph's properties survive in any case. -/
theorem c5_witness :
    process_text_frame tfW5 reps5 = tfW5
    ∧ ((process_text_frame tfW5 reps5).paras.head?.map Paragraph.props)
        = (tfW5.paras.head?.map Paragraph.props) := by
  have h := c5_amended tfW5 reps5
  exact ⟨h.1 (by decide), h.2 (by decide)⟩

/-! ### C9: Cleanup Pass -/

theorem cleanParagraph_props (p : Paragraph) : (cleanParagraph p).props = p.props := by
  simp only [cleanParagraph]
  split <;> rfl

theorem cleanParagraph_len (p : Paragraph) :
    (cleanParagraph p).runs.length = p.runs.length := by
  simp only [cleanParagraph]
  split
  · rename_i hguard
    obtain ⟨-, -, -, hne⟩ := hguard
    cases hr : p.runs with
    | nil => exact absurd hr hne
    | cons a l => simp [hr]
  · simp

/-- C9 (amended): the Cleanup Pass never adds or removes paragraphs or runs
    and never touches paragraph properties — it only mutates run texts.  For a
    paragraph whose entire trimmed text is exactly one token (so it matches
    the token pattern in full), the first run's text becomes a single space —
    its formatting object kept — and all further runs are blanked.  A token
    embedded in otherwise-real text is substituted in place by a single space
    with the surrounding text intact ONLY when the trimmed paragraph text
    does not both start with the opening and end with the closing delimiter;
    when it does (e.g. real text between two tokens), the whole-paragraph
    strategy fires instead and blanks everything (see the counterexample). -/
theorem c9_amended (tf : TextFrame) :
    ((clean_frame tf).paras.length = tf.paras.length)
    ∧ (∀ j : Nat, ((clean_frame tf).paras[j]?.map (fun p : Paragraph => p.runs.length))
        = (tf.paras[j]?.map (fun p : Paragraph => p.runs.length)))
    ∧ (∀ j : Nat, ((clean_frame tf).paras[j]?.map Paragraph.props)
        = (tf.paras[j]?.map Paragraph.props))
    ∧ (∀ p ∈ tf.paras,
        startsWithB (pyStrip p.text) "\x7b\x7b" = true →
        endsWithB (pyStrip p.text) "\x7d\x7d" = true →
        tokenFullmatch (pyStrip p.text) = true →
        p.runs ≠ [] →
        (cleanParagraph p).runs.map Run.text = " " :: p.runs.tail.map (fun _ => ""))
    ∧ (∀ p ∈ tf.paras,
        ¬(startsWithB (pyStrip p.text) "\x7b\x7b" = true ∧
          endsWithB (pyStrip p.text) "\x7d\x7d" = true) →
        (cleanParagraph p).runs
          = p.runs.map (fun r => { r with text := cleanRunText r.text })) := by
  refine ⟨?_, ?_, ?_, ?_, ?_⟩
  · simp [clean_frame]
  · intro j
    cases hc : tf.paras[j]? with
    | none => simp [clean_frame, List.getElem?_map, hc]
    | some p => simp [clean_frame, List.getElem?_map, hc, cleanParagraph_len p]
  · intro j
    cases hc : tf.paras[j]? with
    | none => simp [clean_frame, List.getElem?_map, hc]
    | some p => simp [clean_frame, List.getElem?_map, hc, cleanParagraph_props p]
  · intro p _ hs he hf hne
    simp only [cleanParagraph]
    rw [if_pos ⟨hs, he, Or.inl hf, hne⟩]
    cases hr : p.runs with
    | nil => exact absurd hr hne
    | cons a l => simp [hr, Function.comp_def]
  · intro p _ hng
    simp only [cleanParagraph]
    rw [if_neg (fun hg => hng ⟨hg.1, hg.2.1⟩)]

def paraC9 : Paragraph :=
  ⟨{}, [⟨"\x7b\x7bA\x7d\x7d", {}⟩, ⟨" keep ", {}⟩, ⟨"\x7b\x7bB\x7d\x7d", {}⟩]⟩

def frameC9 : TextFrame := ⟨[paraC9]⟩

/-- C9 (counterexample): the paragraph `{{A}} keep {{B}}` has tokens embedded
    in otherwise-real text, yet the Cleanup Pass does NOT substitute only the
    token spans: because the trimmed text starts with the opening and ends
    with the closing delimiter, the whole-paragraph strategy fires and the
    real text " keep " is destroyed along with the tokens. -/
theorem c9_counterexample :
    (substrB "keep" frameC9.text = true)
    ∧ ((clean_frame frameC9).paras.map (fun p => p.runs.map Run.text) = [[" ", "", ""]])
    ∧ (substrB "keep" (clean_frame frameC9).text = false) := by decide

def tfW9 : TextFrame :=
  ⟨[⟨{}, [⟨"\x7b\x7bGone\x7d\x7d", {}⟩]⟩,
    ⟨{}, [⟨"pre \x7b\x7bX\x7d\x7d post", {}⟩]⟩]⟩

/-- C9 (witness): a pure-token paragraph becomes a single space (run count
    kept); an embedded token inside text that does not both start and end
    with delimiters is replaced in place, the real text surviving. -/
theorem c9_witness :
    ((clean_frame tfW9).paras.length = 2)
    ∧ ((cleanParagraph ⟨{}, [⟨"\x7b\x7bGone\x7d\x7d", {}⟩]⟩).runs.map Run.text = [" "])
    ∧ ((cleanParagraph ⟨{}, [⟨"pre \x7b\x7bX\x7d\x7d post", {}⟩]⟩).runs
        = [⟨"pre   post", { font_size := none }⟩]) := by
  have h := c9_amended tfW9
  refine ⟨by rw [h.1]; decide, ?_, ?_⟩
  · rw [h.2.2.2.1 ⟨{}, [⟨"\x7b\x7bGone\x7d\x7d", {}⟩]⟩ (by decide) (by decide)
      (by decide) (by decide) (by decide)]
    decide
  · rw [h.2.2.2.2 ⟨{}, [⟨"pre \x7b\x7bX\x7d\x7d post", {}⟩]⟩ (by decide) (by decide)]
    decide

/-! ### C1: one-pager cardinality adjustment -/

theorem deleteFrom_take {α : Type} :
    ∀ (k : Nat) (slides : List α) (d : Nat), slides.length = d + k →
      (downRange (d + k - 1) k).foldl delete_slide slides = slides.take d := by
  intro k
  induction k with
  | zero =>
    intro slides d h
    simp only [downRange, List.foldl_nil]
    rw [show d = slides.length by omega, List.take_length]
  | succ k ih =>
    intro slides d h
    have h1 : d + (k + 1) - 1 = d + k := by omega
    rw [h1, show downRange (d + k) (k + 1) = (d + k) :: downRange (d + k - 1) k from rfl,
      List.foldl_cons]
    have hdel : delete_slide slides (d + k) = slides.take (d + k) := by
      rw [delete_slide, List.eraseIdx_eq_take_drop_succ,
        List.drop_eq_nil_of_le (by omega), List.append_nil]
    rw [hdel]
    have h2 : (slides.take (d + k)).length = d + k := by
      rw [List.length_take]; omega
    rw [ih (slides.take (d + k)) d h2, List.take_take]
    congr 1
    omega

theorem downRange_chain :
    ∀ (k hi : Nat), k ≤ hi + 1 → List.Chain' (fun a b => b < a) (downRange hi k) := by
  intro k
  induction k with
  | zero => intro hi _; simp [downRange]
  | succ k ih =>
    intro hi hk
    cases k with
    | zero => simp [downRange]
    | succ k2 =>
      rw [show downRange hi (k2 + 1 + 1) = hi :: downRange (hi - 1) (k2 + 1) from rfl,
        show downRange (hi - 1) (k2 + 1) = (hi - 1) :: downRange (hi - 1 - 1) k2 from rfl,
        List.chain'_cons]
      constructor
      · omega
      · have := ih (hi - 1) (by omega)
        rw [show downRange (hi - 1) (k2 + 1) = (hi - 1) :: downRange (hi - 1 - 1) k2
          from rfl] at this
        exact this

theorem fillOnePagers_spec :
    ∀ (r : Nat) (slides : List OPSlide) (i : Nat),
      ((fillOnePagersAux slides i r).2 = min r (slides.length - (start_op_index + i)))
      ∧ ((fillOnePagersAux slides i r).1.length = slides.length)
      ∧ (∀ j : Nat, (fillOnePagersAux slides i r).1[j]? =
          if start_op_index + i ≤ j ∧
              j < start_op_index + i + (fillOnePagersAux slides i r).2 then
            slides[j]?.map (fun s => { s with filledWith := some (j - start_op_index) })
          else slides[j]?) := by
  intro r
  induction r with
  | zero =>
    intro slides i
    refine ⟨by simp [fillOnePagersAux], by simp [fillOnePagersAux], ?_⟩
    intro j
    simp only [fillOnePagersAux]
    rw [if_neg (by omega)]
  | succ r ih =>
    intro slides i
    by_cases hlen : slides.length ≤ start_op_index + i
    · refine ⟨?_, ?_, ?_⟩
      · simp only [fillOnePagersAux, if_pos hlen]
        omega
      · simp only [fillOnePagersAux, if_pos hlen]
      · intro j
        simp only [fillOnePagersAux, if_pos hlen]
        rw [if_neg (by omega)]
    · push_neg at hlen
      have hs0 : slides[start_op_index + i]? = some slides[start_op_index + i] :=
        List.getElem?_eq_getElem hlen
      set s1 := slides.set (start_op_index + i)
        { slides[start_op_index + i] with filledWith := some i } with hs1def
      have hstep : fillOnePagersAux slides i (r + 1)
          = ((fillOnePagersAux s1 (i + 1) r).1,
             (fillOnePagersAux s1 (i + 1) r).2 + 1) := by
        simp only [fillOnePagersAux,
          if_neg (by omega : ¬ slides.length ≤ start_op_index + i)]
        rw [fill_case, hs0]
      have hlen1 : s1.length = slides.length := by rw [hs1def]; simp
      have iht := ih s1 (i + 1)
      have hval : (fillOnePagersAux s1 (i + 1) r).2
          = min r (slides.length - (start_op_index + (i + 1))) := by
        rw [iht.1, hlen1]
      refine ⟨?_, ?_, ?_⟩
      · rw [hstep]
        dsimp only
        rw [hval]
        omega
      · rw [hstep]
        dsimp only
        rw [iht.2.1, hlen1]
      · intro j
        rw [hstep]
        dsimp only
        rw [iht.2.2 j]
        by_cases hj0 : j = start_op_index + i
        · subst hj0
          rw [if_neg (by omega), if_pos (by omega)]
          rw [hs1def, List.getElem?_set_self (by omega), hs0]
          simp only [Option.map_some']
          have he : start_op_index + i - start_op_index = i := by omega
          rw [he]
        · have hset : s1[j]? = slides[j]? := by
            rw [hs1def]
            exact List.getElem?_set_ne (by omega)
          rw [hset]
          by_cases hc : start_op_index + (i + 1) ≤ j ∧
              j < start_op_index + (i + 1) + (fillOnePagersAux s1 (i + 1) r).2
          · rw [if_pos hc, if_pos (by omega)]
          · rw [if_neg hc, if_neg (by omega)]

/-- C1: with `T = n - 10` detail-template slides (indices 10..n-1) and `r`
    ordered qualifying records, the one-pager phase fills exactly the first
    `min T r` template slides in increasing index order — ordered record `i`
    (0-based) landing on slide index `10 + i` — leaves the ten leading slides
    untouched, and deletes every template slide beyond the last filled one,
    so the final deck has `10 + min T r` slides; the deletion loop visits a
    strictly decreasing sequence of indices (highest first). -/
theorem c1_cardinality (n r : Nat) (h : 10 ≤ n) :
    ((onePagerPhase (initialDeck n) r).length = 10 + min (n - 10) r)
    ∧ (∀ i : Nat, i < min (n - 10) r →
        (onePagerPhase (initialDeck n) r)[10 + i]?
          = some { templatePos := 10 + i, filledWith := some i })
    ∧ (∀ i : Nat, min (n - 10) r ≤ i →
        (onePagerPhase (initialDeck n) r)[10 + i]? = none)
    ∧ (∀ j : Nat, j < 10 →
        (onePagerPhase (initialDeck n) r)[j]?
          = some { templatePos := j, filledWith := none })
    ∧ (∀ hi k : Nat, k ≤ hi + 1 →
        List.Chain' (fun a b => b < a) (downRange hi k)) := by
  have hso : start_op_index = 10 := rfl
  have hlen0 : (initialDeck n).length = n := by simp [initialDeck]
  have hspec := fillOnePagers_spec r (initialDeck n) 0
  have hp : (fillOnePagersAux (initialDeck n) 0 r).2 = min r (n - 10) := by
    rw [hspec.1, hlen0]
    simp [start_op_index]
  have hlen1 : (fillOnePagersAux (initialDeck n) 0 r).1.length = n := by
    rw [hspec.2.1, hlen0]
  have hkey : onePagerPhase (initialDeck n) r
      = (fillOnePagersAux (initialDeck n) 0 r).1.take
          (10 + (fillOnePagersAux (initialDeck n) 0 r).2) := by
    simp only [onePagerPhase]
    have he : start_op_index + (fillOnePagersAux (initialDeck n) 0 r).2 - 1 + 1
        = 10 + (fillOnePagersAux (initialDeck n) 0 r).2 := by
      simp only [start_op_index]; omega
    rw [he]
    by_cases hd : 10 + (fillOnePagersAux (initialDeck n) 0 r).2
        < (fillOnePagersAux (initialDeck n) 0 r).1.length
    · rw [if_pos hd]
      have harg : (fillOnePagersAux (initialDeck n) 0 r).1.length - 1
          = 10 + (fillOnePagersAux (initialDeck n) 0 r).2 +
            ((fillOnePagersAux (initialDeck n) 0 r).1.length -
              (10 + (fillOnePagersAux (initialDeck n) 0 r).2)) - 1 := by omega
      rw [harg]
      exact deleteFrom_take _ _ _ (by omega)
    · rw [if_neg hd]
      rw [List.take_of_length_le (by omega)]
  have hinit : ∀ j : Nat, j < n → (initialDeck n)[j]?
      = some { templatePos := j, filledWith := none } := by
    intro j hj
    simp [initialDeck, List.getElem?_map, List.getElem?_range hj]
  refine ⟨?_, ?_, ?_, ?_, fun hi k hk => downRange_chain k hi hk⟩
  · rw [hkey, List.length_take, hlen1, hp]
    omega
  · intro i hi
    rw [hkey, List.getElem?_take]
    rw [if_pos (by omega)]
    rw [hspec.2.2 (10 + i)]
    rw [if_pos (by omega)]
    rw [hinit (10 + i) (by omega)]
    simp only [Option.map_some']
    have he : 10 + i - start_op_index = i := by omega
    rw [he]
  · intro i hi
    rw [hkey, List.getElem?_take]
    rw [if_neg (by omega)]
  · intro j hj
    rw [hkey, List.getElem?_take]
    rw [if_pos (by omega)]
    rw [hspec.2.2 j]
    rw [if_neg (by omega)]
    exact hinit j (by omega)

/-- C1 (witness): a 13-slide deck (3 detail templates) and 2 records: the
    final deck has 12 slides, records 0 and 1 sit on slide indices 10 and 11,
    slide 12 is gone, the leading slides are untouched. -/
theorem c1_witness :
    ((onePagerPhase (initialDeck 13) 2).length = 12)
    ∧ ((onePagerPhase (initialDeck 13) 2)[10]?
        = some { templatePos := 10, filledWith := some 0 })
    ∧ ((onePagerPhase (initialDeck 13) 2)[11]?
        = some { templatePos := 11, filledWith := some 1 })
    ∧ ((onePagerPhase (initialDeck 13) 2)[12]? = none)
    ∧ ((onePagerPhase (initialDeck 13) 2)[0]?
        = some { templatePos := 0, filledWith := none }) := by
  have h := c1_cardinality 13 2 (by decide)
  refine ⟨by rw [h.1]; decide, ?_, ?_, ?_, ?_⟩
  · have := h.2.1 0 (by decide)
    simpa using this
  · have := h.2.1 1 (by decide)
    simpa using this
  · have := h.2.2.1 2 (by decide)
    simpa using this
  · exact h.2.2.2.1 0 (by decide)

/-! ### C10: error absorption and pipeline completion -/

theorem findToken_head (cs : List Char) :
    ∀ t, findToken cs = some t → t.1 = [] ∨ t.1.head? = cs.head? := by
  intro t h
  cases cs with
  | nil => simp [findToken] at h
  | cons c rest =>
    simp only [findToken] at h
    split at h
    · split at h
      · cases h; left; rfl
      · simp at h
    · rw [Option.map_eq_some'] at h
      obtain ⟨a, _, hf⟩ := h
      right
      rw [← hf]
      rfl

theorem findToken_none_of_no_open :
    ∀ cs : List Char, infixB ['\x7b', '\x7b'] cs = false → findToken cs = none := by
  intro cs
  induction cs with
  | nil => intro _; rfl
  | cons c rest ih =>
    intro h
    simp only [infixB, Bool.or_eq_false_iff] at h
    simp only [findToken]
    rw [if_neg ?hcond]
    · rw [ih h.2]
      rfl
    case hcond =>
      rintro ⟨hc, hh⟩
      subst hc
      cases rest with
      | nil => simp at hh
      | cons x xs =>
        have hx : x = '\x7b' := by simpa using hh
        subst hx
        simp [List.isPrefixOf] at h

theorem findToken_pre_no_open (cs : List Char) :
    ∀ t, findToken cs = some t → infixB ['\x7b', '\x7b'] t.1 = false := by
  induction cs with
  | nil => intro t h; simp [findToken] at h
  | cons c rest ih =>
    intro t h
    simp only [findToken] at h
    split at h
    · split at h
      · cases h; rfl
      · simp at h
    · rename_i hcond
      rw [Option.map_eq_some'] at h
      obtain ⟨a, ha, hf⟩ := h
      have hpre := ih a ha
      rw [← hf]
      simp only [infixB, Bool.or_eq_false_iff]
      refine ⟨?_, hpre⟩
      cases hh : a.1 with
      | nil => simp [hh, List.isPrefixOf]
      | cons x xs =>
        have := findToken_head rest a ha
        rw [hh] at this
        rcases this with h1 | h1
        · simp at h1
        · by_cases hc : c = '\x7b'
          · by_cases hx : x = '\x7b'
            · exfalso
              apply hcond
              subst hc; subst hx
              refine ⟨rfl, ?_⟩
              rw [← h1]
              rfl
            · simp [List.isPrefixOf]
              exact fun _ hxx => hx hxx.symm
          · simp [List.isPrefixOf]
            exact fun hcc => absurd hcc.symm hc

theorem findToken_append_none :
    ∀ (a r : List Char), infixB ['\x7b', '\x7b'] a = false → findToken r = none →
      findToken (a ++ ' ' :: r) = none := by
  intro a
  induction a with
  | nil =>
    intro r _ hr
    simp only [List.nil_append, findToken]
    rw [if_neg (by rintro ⟨hc, -⟩; exact absurd hc (by decide))]
    rw [hr]
    rfl
  | cons c a2 ih =>
    intro r h hr
    simp only [infixB, Bool.or_eq_false_iff] at h
    simp only [List.cons_append, findToken]
    rw [if_neg ?hcond]
    · rw [List.append_eq, ih r h.2 hr]
      rfl
    case hcond =>
      rintro ⟨hc, hh⟩
      subst hc
      cases a2 with
      | nil => simp at hh
      | cons x xs =>
        have hx : x = '\x7b' := by simpa using hh
        subst hx
        simp [List.isPrefixOf] at h

theorem pySubnAux_no_token :
    ∀ (fuel : Nat) (cs : List Char), cs.length ≤ fuel →
      findToken (pySubnAux fuel cs).1 = none := by
  intro fuel
  induction fuel with
  | zero =>
    intro cs hcs
    have : cs = [] := List.length_eq_zero.mp (by omega)
    subst this
    rfl
  | succ fuel ih =>
    intro cs hcs
    simp only [pySubnAux]
    cases hft : findToken cs with
    | none => exact hft
    | some t =>
      dsimp only
      exact findToken_append_none t.1 (pySubnAux fuel t.2.2).1
        (findToken_pre_no_open cs t hft)
        (ih t.2.2 (by have := findToken_lt cs t hft; omega))

theorem cleanRunText_no_token (t : String) : findToken (cleanRunText t).data = none := by
  rw [cleanRunText]
  by_cases hs : substrB "\x7b\x7b" t = true
  · rw [if_pos hs]
    exact pySubnAux_no_token t.data.length t.data (le_refl _)
  · rw [if_neg hs]
    exact findToken_none_of_no_open t.data (by
      simpa [substrB] using (Bool.not_eq_true _).mp hs)

theorem clean_frame_no_token (tf : TextFrame) :
    ∀ p ∈ (clean_frame tf).paras, ∀ r ∈ p.runs, findToken r.text.data = none := by
  intro p hp r hr
  simp only [clean_frame] at hp
  obtain ⟨q, _, rfl⟩ := List.mem_map.mp hp
  simp only [cleanParagraph] at hr
  split at hr
  · rcases List.mem_cons.mp hr with h1 | h1
    · subst h1; rfl
    · obtain ⟨x, _, rfl⟩ := List.mem_map.mp h1
      rfl
  · obtain ⟨x, _, rfl⟩ := List.mem_map.mp hr
    exact cleanRunText_no_token x.text

theorem str_data_append (x y : String) : (x ++ y).data = x.data ++ y.data := rfl

theorem str_eq_empty_of_data (s : String) (h : s.data = []) : s = "" := by
  cases s
  simp_all

theorem myIntercalate_empty :
    ∀ (sep : String) (l : List String), myIntercalate sep l = "" → ∀ s ∈ l, s = "" := by
  intro sep l
  induction l with
  | nil => intro _ s hs; simp at hs
  | cons a rest ih =>
    intro h s hs
    cases rest with
    | nil =>
      simp only [myIntercalate] at h
      rcases List.mem_singleton.mp hs with rfl
      exact h
    | cons b rest2 =>
      simp only [myIntercalate] at h
      have hdata := congrArg String.data h
      rw [str_data_append, str_data_append] at hdata
      have h3 : a.data = [] ∧ sep.data = [] ∧ (myIntercalate sep (b :: rest2)).data = [] := by
        simpa using hdata
      have ha : a = "" := str_eq_empty_of_data a h3.1
      have hrest : myIntercalate sep (b :: rest2) = "" :=
        str_eq_empty_of_data _ h3.2.2
      rcases List.mem_cons.mp hs with rfl | hs2
      · exact ha
      · exact ih hrest s hs2

theorem frame_text_empty_runs (tf : TextFrame) (h : tf.text = "") :
    ∀ p ∈ tf.paras, ∀ r ∈ p.runs, r.text = "" := by
  intro p hp r hr
  have hps : Paragraph.text p = "" :=
    myIntercalate_empty "\n" _ h _ (List.mem_map_of_mem Paragraph.text hp)
  exact myIntercalate_empty "" _ hps _ (List.mem_map_of_mem Run.text hr)

theorem process_text_frame_nil (tf : TextFrame) : process_text_frame tf [] = tf := by
  simp only [process_text_frame]
  by_cases h : pyStrip tf.text = ""
  · rw [if_pos h]
  · rw [if_neg h]
    simp

/-- C10: `load_data` absorbs a missing or unreadable CSV into an empty
    mapping instead of raising; with the template present the pipeline then
    always runs to completion (`Except.ok`) — with empty data it reduces to
    the one-pager shrink of the untouched template followed by the Cleanup
    Pass — and in the produced deck no run's text contains a complete
    placeholder token any more (a token split across runs of a mixed-text
    paragraph is beyond the per-run substitution and can survive).  Only the
    missing template is a terminal failure. -/
theorem c10_error_absorption :
    (∀ e : String, load_data (Except.error e) = [])
    ∧ (∀ (csv : Except String (List Row)) (tpl : List (List TextFrame)),
        (process_ppt csv (some tpl)).isOk = true)
    ∧ (∀ csv : Except String (List Row),
        process_ppt csv none = Except.error "Vorlage nicht gefunden")
    ∧ (∀ (e : String) (tpl : List (List TextFrame)),
        process_ppt (Except.error e) (some tpl)
          = Except.ok (cleanup_unused_placeholders (onePagerDeck tpl [])))
    ∧ (∀ (csv : Except String (List Row)) (tpl deck : List (List TextFrame)),
        process_ppt csv (some tpl) = Except.ok deck →
        ∀ slide ∈ deck, ∀ tf ∈ slide, ∀ p ∈ tf.paras, ∀ r ∈ p.runs,
          findToken r.text.data = none) := by
  refine ⟨fun e => rfl, fun csv tpl => rfl, fun csv => rfl, ?_, ?_⟩
  · intro e tpl
    simp only [process_ppt]
    have hmap : tpl.enum.map (fun isl =>
        if isl.1 = 0 then
          isl.2.map (fun tf => process_text_frame tf (slide1Replacements
            (((load_data (Except.error e)).map Prod.snd).flatten)))
        else isl.2) = tpl := by
      have hr : slide1Replacements (((load_data (Except.error e)).map Prod.snd).flatten)
          = [] := rfl
      rw [hr]
      have hfun : ∀ isl : Nat × List TextFrame,
          (if isl.1 = 0 then isl.2.map (fun tf => process_text_frame tf []) else isl.2)
            = isl.2 := by
        intro isl
        split
        · have hid : (fun tf => process_text_frame tf ([] : List (String × RepData)))
              = id := by
            funext tf
            exact process_text_frame_nil tf
          rw [hid, List.map_id]
        · rfl
      calc tpl.enum.map (fun isl =>
              if isl.1 = 0 then isl.2.map (fun tf => process_text_frame tf []) else isl.2)
            = tpl.enum.map Prod.snd := List.map_congr_left (fun a _ => hfun a)
        _ = tpl := List.enum_map_snd tpl
    rw [hmap]
    have ho : orderedCases (((load_data (Except.error e)).map Prod.snd).flatten) = [] := rfl
    rw [ho]
  · intro csv tpl deck hok slide hsl tf htf p hp r hr
    have hdeck : deck = cleanup_unused_placeholders
        (onePagerDeck (tpl.enum.map (fun isl =>
          if isl.1 = 0 then
            isl.2.map (fun tf => process_text_frame tf (slide1Replacements
              (((load_data csv).map Prod.snd).flatten)))
          else isl.2))
          (orderedCases (((load_data csv).map Prod.snd).flatten))) := by
      simp only [process_ppt] at hok
      exact (Except.ok.inj hok).symm
    subst hdeck
    simp only [cleanup_unused_placeholders] at hsl
    obtain ⟨slide0, _, rfl⟩ := List.mem_map.mp hsl
    obtain ⟨tf0, _, rfl⟩ := List.mem_map.mp htf
    by_cases ht : tf0.text = ""
    · rw [if_neg (by simpa using ht)] at hp
      have := frame_text_empty_runs tf0 ht p hp r hr
      rw [this]
      rfl
    · rw [if_pos (by simpa using ht)] at hp
      exact clean_frame_no_token tf0 p hp r hr

def tplW : List (List TextFrame) :=
  [[⟨[⟨{}, [⟨"\x7b\x7bLeftover\x7d\x7d", {}⟩]⟩]⟩]]

def deckW : List (List TextFrame) :=
  [[⟨[⟨{}, [⟨" ", {}⟩]⟩]⟩]]

/-- C10 (witness): a failed CSV read yields the empty mapping, the pipeline
    completes and the leftover placeholder of the one-slide template is
    blanked by the Cleanup Pass; the missing template is the terminal error. -/
theorem c10_witness :
    (load_data (Except.error "missing csv") = [])
    ∧ (process_ppt (Except.error "missing csv") (some tplW) = Except.ok deckW)
    ∧ (process_ppt (Except.error "missing csv") none
        = Except.error "Vorlage nicht gefunden")
    ∧ (∀ p ∈ (⟨[⟨{}, [⟨" ", {}⟩]⟩]⟩ : TextFrame).paras, ∀ r ∈ p.runs,
        findToken r.text.data = none) := by
  have h := c10_error_absorption
  have hcl : cleanup_unused_placeholders (onePagerDeck tplW []) = deckW := by decide
  refine ⟨h.1 "missing csv", ?_, h.2.2.1 (Except.error "missing csv"), ?_⟩
  · rw [h.2.2.2.1 "missing csv" tplW, hcl]
  · intro p hp r hr
    exact h.2.2.2.2 (Except.error "missing csv") tplW deckW
      (by rw [h.2.2.2.1 "missing csv" tplW, hcl])
      [⟨[⟨{}, [⟨" ", {}⟩]⟩]⟩] (by decide)
      (⟨[⟨{}, [⟨" ", {}⟩]⟩]⟩ : TextFrame) (by decide) p hp r hr

def frameSplit : TextFrame :=
  ⟨[⟨{}, [⟨"see \x7b\x7bTok", {}⟩, ⟨"en\x7d\x7d here", {}⟩]⟩]⟩

def tplSplit : List (List TextFrame) := [[frameSplit]]

/-- C10 (counterexample): the pipeline absorbs the CSV failure and runs to
    completion, but the produced deck is NOT free of visible placeholders: in
    a mixed-text paragraph whose token is split across two runs
    ("see \x7b\x7bTok" / "en\x7d\x7d here"), the whole-paragraph strategy's
    guard fails (the trimmed text neither starts nor ends with the
    delimiters) and the per-run substitution sees no complete token in either
    run, so the deck comes back unchanged and its visible text still contains
    the complete token `\x7b\x7bToken\x7d\x7d`. -/
theorem c10_counterexample :
    (process_ppt (Except.error "unreadable csv") (some tplSplit)
        = Except.ok [[frameSplit]])
    ∧ (substrB "\x7b\x7bToken\x7d\x7d" frameSplit.text = true)
    ∧ ((findToken frameSplit.text.data).isSome = true) := by
  refine ⟨?_, by decide, by decide⟩
  show Except.ok _ = Except.ok [[frameSplit]]
  exact congrArg Except.ok (by decide)
